import Mathlib

/-!
Verification of the Dynamic Document Translator backend (src/main.py) against
its natural-language specification.  The Python source is shallowly embedded:
pure computations become Lean functions over ℚ / String / List, the external
collaborators (EasyOCR, the Ollama LLM, the JSON parser of the browser) are
passed in as function parameters returning `Except`/`Option`, and the
imperative loops become structural recursions that also record the calls they
issue (so that claims about which calls happen are statable).
-/

namespace DocTrans

/-! ## Data model -/

/-- A bounding quadrilateral: the four corner points (in image pixel space)
that EasyOCR returns for one detected region. -/
structure Quad where
  p0 : ℚ × ℚ
  p1 : ℚ × ℚ
  p2 : ℚ × ℚ
  p3 : ℚ × ℚ
deriving DecidableEq

/-- One raw entry of an EasyOCR result list: bbox, recognized text and an
optional confidence (the result tuple may omit it, `len(res) >= 3`). -/
structure RawRes where
  bbox : Quad
  text : String
  confidence : Option ℚ
deriving DecidableEq

/-- One entry of the `bboxes` list built by `process_image_with_ocr`:
`{"bbox": res[0], "text": res[1], "confidence": res[2] if len(res) >= 3 else 0.9}`. -/
structure BBoxInfo where
  bbox : Quad
  text : String
  confidence : ℚ
deriving DecidableEq

/-- Conversion of a raw OCR result entry into a `bbox_info` dictionary,
defaulting the confidence to 0.9 when the engine omitted it. -/
def toBBoxInfo (r : RawRes) : BBoxInfo :=
  ⟨r.bbox, r.text, r.confidence.getD (9/10)⟩

/-! ## Region extractor (`process_image_with_ocr`, src/main.py lines 32-97) -/

/-- The fixed ladder `language_combinations` of language-hint sets, tried
narrow to broad. -/
def language_combinations : List (List String) :=
  [["en"],
   ["en", "hi"],
   ["en", "te"],
   ["en", "hi", "te"],
   ["en", "hi", "te", "ta", "kn", "ml", "gu", "pa", "bn", "or"]]

/-- The OCR collaborator: given language hints and the paragraph flag it
either returns a result list or raises (`Except.error`). -/
def OcrEngine : Type :=
  List String → Bool → Except Unit (List RawRes)

/-- The regions one OCR attempt contributes (empty when the attempt raises). -/
def attemptOut (ocr : OcrEngine) (langs : List String) (para : Bool) : List BBoxInfo :=
  match ocr langs para with
  | .ok results => results.map toBBoxInfo
  | .error _ => []

/-- Whether a ladder attempt (paragraph mode) yields at least one region:
the loop`s `if bboxes: break` test for that entry. -/
def succeedsAt (ocr : OcrEngine) (langs : List String) : Bool :=
  match ocr langs true with
  | .ok results => !results.isEmpty
  | .error _ => false

/-- The `for lang_combo in language_combinations` loop: `bboxes` is the
accumulator (extended by each non-raising attempt, `break` when non-empty,
`continue` on an exception).  Also records the attempted entries, in order. -/
def ladderLoop (ocr : OcrEngine) (acc : List BBoxInfo) :
    List (List String) → List BBoxInfo × List (List String)
  | [] => (acc, [])
  | combo :: rest =>
    match ocr combo true with
    | .error _ =>
      let r := ladderLoop ocr acc rest
      (r.1, combo :: r.2)
    | .ok results =>
      let acc2 := acc ++ results.map toBBoxInfo
      if acc2.isEmpty then
        let r := ladderLoop ocr acc2 rest
        (r.1, combo :: r.2)
      else
        (acc2, [combo])

/-- `process_image_with_ocr`: run the ladder (paragraph mode); if it produced
nothing, retry once with `["en"]` and `paragraph=False`.  Returns the regions
together with the trace of OCR attempts `(language hints, paragraph flag)`
actually issued, in order. -/
def process_image_with_ocr (ocr : OcrEngine) :
    List BBoxInfo × List (List String × Bool) :=
  let r := ladderLoop ocr [] language_combinations
  let tr := r.2.map (fun c => (c, true))
  if r.1.isEmpty then
    match ocr ["en"] false with
    | .error _ => ([], tr ++ [(["en"], false)])
    | .ok results => (results.map toBBoxInfo, tr ++ [(["en"], false)])
  else
    (r.1, tr)

theorem succeedsAt_of_ok (ocr : OcrEngine) (c : List String) (results : List RawRes)
    (h : ocr c true = .ok results) : succeedsAt ocr c = !results.isEmpty := by
  simp [succeedsAt, h]

theorem succeedsAt_of_error (ocr : OcrEngine) (c : List String) (e : Unit)
    (h : ocr c true = .error e) : succeedsAt ocr c = false := by
  simp [succeedsAt, h]

theorem ladderLoop_all_fail (ocr : OcrEngine) :
    ∀ combos : List (List String),
      (∀ c ∈ combos, succeedsAt ocr c = false) →
      ladderLoop ocr [] combos = ([], combos) := by
  intro combos
  induction combos with
  | nil => intro _; rfl
  | cons c rest ih =>
    intro h
    have hc := h c (List.mem_cons_self c rest)
    have hrest : ∀ x ∈ rest, succeedsAt ocr x = false :=
      fun x hx => h x (List.mem_cons_of_mem c hx)
    unfold ladderLoop
    cases hoc : ocr c true with
    | error e =>
      simp only [ih hrest]
    | ok results =>
      rw [succeedsAt_of_ok ocr c results hoc] at hc
      have hres : results = [] := by
        simpa [List.isEmpty_iff] using hc
      subst hres
      simp [ih hrest]

theorem ladderLoop_first_success (ocr : OcrEngine) :
    ∀ (combos : List (List String)) (i : ℕ), i < combos.length →
      (∀ j, j < i → succeedsAt ocr (combos.getD j []) = false) →
      succeedsAt ocr (combos.getD i []) = true →
      ladderLoop ocr [] combos =
        (attemptOut ocr (combos.getD i []) true, combos.take (i + 1)) := by
  intro combos
  induction combos with
  | nil => intro i hi; simp at hi
  | cons c rest ih =>
    intro i hi hfail hsucc
    match i with
    | 0 =>
      simp only [List.getD_cons_zero] at hsucc ⊢
      unfold ladderLoop
      cases hoc : ocr c true with
      | error e =>
        rw [succeedsAt_of_error ocr c e hoc] at hsucc
        exact absurd hsucc (by simp)
      | ok results =>
        rw [succeedsAt_of_ok ocr c results hoc] at hsucc
        have hne : results ≠ [] := by
          intro hr; rw [hr] at hsucc; exact absurd hsucc (by simp)
        have hmapne : (([] : List BBoxInfo) ++ results.map toBBoxInfo).isEmpty = false := by
          simp [List.isEmpty_iff, hne]
        simp [hmapne, attemptOut, hoc]
        exact fun hr => absurd hr hne
    | Nat.succ n =>
      have hc0 : succeedsAt ocr c = false := by
        have := hfail 0 (Nat.succ_pos n)
        simpa using this
      have hrest :
          ladderLoop ocr [] rest =
            (attemptOut ocr (rest.getD n []) true, rest.take (n + 1)) := by
        apply ih n (by simpa using Nat.lt_of_succ_lt_succ hi)
        · intro j hj
          have := hfail (j + 1) (Nat.succ_lt_succ hj)
          simpa using this
        · simpa using hsucc
      unfold ladderLoop
      cases hoc : ocr c true with
      | error e =>
        simp [hrest]
      | ok results =>
        rw [succeedsAt_of_ok ocr c results hoc] at hc0
        have hres : results = [] := by
          simpa [List.isEmpty_iff] using hc0
        subst hres
        simp [hrest]

/-- C2: For every image and every ordered ladder of language-hint sets, the
region extractor attempts OCR on the ladder entries strictly in order, treats
a thrown attempt or a zero-region attempt as advancing to the next entry,
stops at the first entry that yields at least one region and never evaluates
any later entry after that, and only if every ladder entry yields nothing
performs one additional attempt with the narrowest language hint without
paragraph grouping.  The attempt trace recorded by the embedding witnesses
strict order and early exit. -/
theorem C2_ladder_first_success (ocr : OcrEngine) :
    (∀ i, i < language_combinations.length →
      (∀ j, j < i → succeedsAt ocr (language_combinations.getD j []) = false) →
      succeedsAt ocr (language_combinations.getD i []) = true →
      process_image_with_ocr ocr =
        (attemptOut ocr (language_combinations.getD i []) true,
         (language_combinations.take (i + 1)).map (fun c => (c, true))))
    ∧ ((∀ c ∈ language_combinations, succeedsAt ocr c = false) →
      process_image_with_ocr ocr =
        (attemptOut ocr ["en"] false,
         language_combinations.map (fun c => (c, true)) ++ [(["en"], false)])) := by
  constructor
  · intro i hi hfail hsucc
    have hll := ladderLoop_first_success ocr language_combinations i hi hfail hsucc
    cases hoc : ocr (language_combinations.getD i []) true with
    | error e =>
      rw [succeedsAt_of_error ocr _ e hoc] at hsucc
      exact absurd hsucc (by simp)
    | ok results =>
      rw [succeedsAt_of_ok ocr _ results hoc] at hsucc
      have hne : results ≠ [] := by
        intro hr; rw [hr] at hsucc; exact absurd hsucc (by simp)
      obtain ⟨x, xs, hx⟩ := List.exists_cons_of_ne_nil hne
      subst hx
      have hatt : attemptOut ocr (language_combinations.getD i []) true =
          toBBoxInfo x :: List.map toBBoxInfo xs := by
        unfold attemptOut
        rw [hoc]
        rfl
      unfold process_image_with_ocr
      rw [hll, hatt]
      simp
  · intro h
    have hll := ladderLoop_all_fail ocr language_combinations h
    unfold process_image_with_ocr
    rw [hll]
    cases hoc : ocr ["en"] false with
    | error e => simp [hoc, attemptOut]
    | ok results => simp [hoc, attemptOut]

/-- C2 witness: an OCR engine that raises on every attempt takes the
all-entries-fail branch: all five ladder entries are attempted in paragraph
mode, then the single no-paragraph retry with the narrowest hint. -/
theorem C2_witness :
    process_image_with_ocr (fun _ _ => (.error () : Except Unit (List RawRes))) =
      (attemptOut (fun _ _ => (.error () : Except Unit (List RawRes))) ["en"] false,
       language_combinations.map (fun c => (c, true)) ++ [(["en"], false)]) :=
  (C2_ladder_first_success (fun _ _ => (.error () : Except Unit (List RawRes)))).2
    (fun _ _ => rfl)

/-! ## Layout reconstructor (`create_processed_html`, src/main.py lines 413-469)

The overlay-construction loop of `create_processed_html` is embedded below;
the surrounding HTML templating is presentation and not modelled.  Pixel
coordinates and image dimensions are modelled over ℚ. -/

/-- The x coordinates of the four quad corners, and their running min/max as
Python computes `min(x_coords)` / `max(x_coords)` over the four-element list. -/
def x_min (q : Quad) : ℚ := min (min (min q.p0.1 q.p1.1) q.p2.1) q.p3.1

def x_max (q : Quad) : ℚ := max (max (max q.p0.1 q.p1.1) q.p2.1) q.p3.1

def y_min (q : Quad) : ℚ := min (min (min q.p0.2 q.p1.2) q.p2.2) q.p3.2

def y_max (q : Quad) : ℚ := max (max (max q.p0.2 q.p1.2) q.p2.2) q.p3.2

/-- Python int() conversion: truncation toward zero. -/
def pyInt (q : ℚ) : ℤ := if 0 ≤ q then ⌊q⌋ else ⌈q⌉

/-- One entry of the `text_overlays` list of `create_processed_html`. -/
structure TextOverlay where
  text : String
  left : ℚ
  top : ℚ
  width : ℚ
  height : ℚ
  font_size : ℤ
  action : String
deriving DecidableEq

/-- `user_actions.get(str(i), "preserve")`: look the region index up in the
user-action mapping, defaulting to preserve. -/
def getAction (user_actions : List (ℕ × String)) (i : ℕ) : String :=
  (user_actions.lookup i).getD "preserve"

/-- The display text chosen for a non-whiteout region: the stripped
translated line when `action == "translate" and i < len(translated_lines)`,
otherwise the original recognized text. -/
def textToDraw (action : String) (i : ℕ) (translated_lines : List String)
    (b : BBoxInfo) : String :=
  if action = "translate" ∧ i < translated_lines.length then
    (translated_lines.getD i "").trim
  else
    b.text

/-- The percentage-rect / font-size computation for one emitted overlay:
coordinates normalized to percent of image size, font size
`max(8, min(16, int(height_pct * 0.8)))`. -/
def overlayFor (img_width img_height : ℚ) (b : BBoxInfo) (text_to_draw : String)
    (action : String) : TextOverlay :=
  let left_pct := x_min b.bbox / img_width * 100
  let top_pct := y_min b.bbox / img_height * 100
  let width_pct := (x_max b.bbox - x_min b.bbox) / img_width * 100
  let height_pct := (y_max b.bbox - y_min b.bbox) / img_height * 100
  let font_size := max 8 (min 16 (pyInt (height_pct * (8/10))))
  ⟨text_to_draw, left_pct, top_pct, width_pct, height_pct, font_size, action⟩

/-- The `for i, bbox in enumerate(bboxes)` loop of `create_processed_html`:
whiteout regions are skipped (`continue`), every other region contributes one
overlay. -/
def overlaysLoop (img_w img_h : ℚ) (translated_lines : List String)
    (user_actions : List (ℕ × String)) : ℕ → List BBoxInfo → List TextOverlay
  | _, [] => []
  | i, b :: rest =>
    let action := getAction user_actions i
    if action = "whiteout" then
      overlaysLoop img_w img_h translated_lines user_actions (i + 1) rest
    else
      overlayFor img_w img_h b (textToDraw action i translated_lines b) action ::
        overlaysLoop img_w img_h translated_lines user_actions (i + 1) rest

/-- The `text_overlays` list built by `create_processed_html`. -/
def create_text_overlays (img_w img_h : ℚ) (bboxes : List BBoxInfo)
    (translated_lines : List String) (user_actions : List (ℕ × String)) :
    List TextOverlay :=
  overlaysLoop img_w img_h translated_lines user_actions 0 bboxes

theorem overlaysLoop_action_ne_whiteout (img_w img_h : ℚ)
    (translated_lines : List String) (user_actions : List (ℕ × String)) :
    ∀ (bs : List BBoxInfo) (i : ℕ) (o : TextOverlay),
      o ∈ overlaysLoop img_w img_h translated_lines user_actions i bs →
      o.action ≠ "whiteout" := by
  intro bs
  induction bs with
  | nil => intro i o ho; simp [overlaysLoop] at ho
  | cons b rest ih =>
    intro i o ho
    unfold overlaysLoop at ho
    by_cases hact : getAction user_actions i = "whiteout"
    · rw [if_pos hact] at ho
      exact ih (i + 1) o ho
    · rw [if_neg hact] at ho
      rcases List.mem_cons.mp ho with hh | ht
      · subst hh
        simpa [overlayFor] using hact
      · exact ih (i + 1) o ht

/-- C5: For every list of regions, every user-action mapping, and every
translated-text list, each region whose action is whiteout produces no
OverlayDescriptor: the emitted overlay list contains no entry for any
whiteout region (every emitted overlay carries a non-whiteout action). -/
theorem C5_no_whiteout_overlay (img_w img_h : ℚ) (bboxes : List BBoxInfo)
    (translated_lines : List String) (user_actions : List (ℕ × String)) :
    ∀ o ∈ create_text_overlays img_w img_h bboxes translated_lines user_actions,
      o.action ≠ "whiteout" :=
  fun o ho =>
    overlaysLoop_action_ne_whiteout img_w img_h translated_lines user_actions
      bboxes 0 o ho

theorem overlaysLoop_font_clamped (img_w img_h : ℚ)
    (translated_lines : List String) (user_actions : List (ℕ × String)) :
    ∀ (bs : List BBoxInfo) (i : ℕ) (o : TextOverlay),
      o ∈ overlaysLoop img_w img_h translated_lines user_actions i bs →
      8 ≤ o.font_size ∧ o.font_size ≤ 16 := by
  intro bs
  induction bs with
  | nil => intro i o ho; simp [overlaysLoop] at ho
  | cons b rest ih =>
    intro i o ho
    unfold overlaysLoop at ho
    by_cases hact : getAction user_actions i = "whiteout"
    · rw [if_pos hact] at ho
      exact ih (i + 1) o ho
    · rw [if_neg hact] at ho
      rcases List.mem_cons.mp ho with hh | ht
      · subst hh
        refine ⟨le_max_left _ _, ?_⟩
        exact max_le (by norm_num) (min_le_left _ _)
      · exact ih (i + 1) o ht

/-- C8: For every region and every rectangle height, the font size computed
for its OverlayDescriptor lies in the interval [8, 16]: the height-derived
value is always clamped to that range regardless of how small or large the
rectangle height percentage is. -/
theorem C8_font_size_clamped (img_w img_h : ℚ) (bboxes : List BBoxInfo)
    (translated_lines : List String) (user_actions : List (ℕ × String)) :
    ∀ o ∈ create_text_overlays img_w img_h bboxes translated_lines user_actions,
      8 ≤ o.font_size ∧ o.font_size ≤ 16 :=
  fun o ho =>
    overlaysLoop_font_clamped img_w img_h translated_lines user_actions
      bboxes 0 o ho

/-- A fixed concrete quad used by witnesses. -/
def q0 : Quad := ⟨(0, 0), (10, 0), (10, 10), (0, 10)⟩

/-- C5 witness: a concrete preserve region yields an overlay whose action is
not whiteout. -/
theorem C5_witness :
    (overlayFor 100 100 ⟨q0, "hello", 9/10⟩ "hello" "preserve").action ≠ "whiteout" :=
  C5_no_whiteout_overlay 100 100 [⟨q0, "hello", 9/10⟩] [] []
    (overlayFor 100 100 ⟨q0, "hello", 9/10⟩ "hello" "preserve")
    (by simp [create_text_overlays, overlaysLoop, getAction, textToDraw])

/-- C8 witness: the concrete overlay of a preserve region has its font size
inside [8, 16]. -/
theorem C8_witness :
    8 ≤ (overlayFor 100 100 ⟨q0, "hello", 9/10⟩ "hello" "preserve").font_size ∧
    (overlayFor 100 100 ⟨q0, "hello", 9/10⟩ "hello" "preserve").font_size ≤ 16 :=
  C8_font_size_clamped 100 100 [⟨q0, "hello", 9/10⟩] [] []
    (overlayFor 100 100 ⟨q0, "hello", 9/10⟩ "hello" "preserve")
    (by simp [create_text_overlays, overlaysLoop, getAction, textToDraw])

/-- The hypothesis of C7: every corner of the quad lies inside the image. -/
def quadInBounds (w h : ℚ) (q : Quad) : Prop :=
  ∀ p ∈ [q.p0, q.p1, q.p2, q.p3], 0 ≤ p.1 ∧ p.1 ≤ w ∧ 0 ≤ p.2 ∧ p.2 ≤ h

/-- The conclusion of C7: all four rectPercent components lie in [0, 100] and
the rectangle stays inside the unit square of percentages. -/
def OverlayInBounds (o : TextOverlay) : Prop :=
  0 ≤ o.left ∧ o.left ≤ 100 ∧ 0 ≤ o.top ∧ o.top ≤ 100 ∧
  0 ≤ o.width ∧ o.width ≤ 100 ∧ 0 ≤ o.height ∧ o.height ≤ 100 ∧
  o.left + o.width ≤ 100 ∧ o.top + o.height ≤ 100

theorem overlayFor_in_bounds (w h : ℚ) (hw : 0 < w) (hh : 0 < h) (b : BBoxInfo)
    (t a : String) (hq : quadInBounds w h b.bbox) :
    OverlayInBounds (overlayFor w h b t a) := by
  obtain ⟨h0x, h0xw, h0y, h0yh⟩ := hq b.bbox.p0 (by simp)
  obtain ⟨h1x, h1xw, h1y, h1yh⟩ := hq b.bbox.p1 (by simp)
  obtain ⟨h2x, h2xw, h2y, h2yh⟩ := hq b.bbox.p2 (by simp)
  obtain ⟨h3x, h3xw, h3y, h3yh⟩ := hq b.bbox.p3 (by simp)
  have hxmin0 : 0 ≤ x_min b.bbox := le_min (le_min (le_min h0x h1x) h2x) h3x
  have hxmaxw : x_max b.bbox ≤ w := max_le (max_le (max_le h0xw h1xw) h2xw) h3xw
  have hxmm : x_min b.bbox ≤ x_max b.bbox :=
    le_trans (le_trans (le_trans (min_le_left _ _) (min_le_left _ _)) (min_le_left _ _))
      (le_trans (le_max_left _ _) (le_trans (le_max_left _ _) (le_max_left _ _)))
  have hymin0 : 0 ≤ y_min b.bbox := le_min (le_min (le_min h0y h1y) h2y) h3y
  have hymaxh : y_max b.bbox ≤ h := max_le (max_le (max_le h0yh h1yh) h2yh) h3yh
  have hymm : y_min b.bbox ≤ y_max b.bbox :=
    le_trans (le_trans (le_trans (min_le_left _ _) (min_le_left _ _)) (min_le_left _ _))
      (le_trans (le_max_left _ _) (le_trans (le_max_left _ _) (le_max_left _ _)))
  simp only [overlayFor, OverlayInBounds]
  refine ⟨?_, ?_, ?_, ?_, ?_, ?_, ?_, ?_, ?_, ?_⟩
  · exact mul_nonneg (div_nonneg hxmin0 hw.le) (by norm_num)
  · rw [div_mul_eq_mul_div, div_le_iff₀ hw]
    nlinarith [hxmm.trans hxmaxw]
  · exact mul_nonneg (div_nonneg hymin0 hh.le) (by norm_num)
  · rw [div_mul_eq_mul_div, div_le_iff₀ hh]
    nlinarith [hymm.trans hymaxh]
  · exact mul_nonneg (div_nonneg (sub_nonneg.2 hxmm) hw.le) (by norm_num)
  · rw [div_mul_eq_mul_div, div_le_iff₀ hw]
    nlinarith
  · exact mul_nonneg (div_nonneg (sub_nonneg.2 hymm) hh.le) (by norm_num)
  · rw [div_mul_eq_mul_div, div_le_iff₀ hh]
    nlinarith
  · rw [div_mul_eq_mul_div, div_mul_eq_mul_div, div_add_div_same, div_le_iff₀ hw]
    nlinarith
  · rw [div_mul_eq_mul_div, div_mul_eq_mul_div, div_add_div_same, div_le_iff₀ hh]
    nlinarith

theorem overlaysLoop_in_bounds (w h : ℚ) (hw : 0 < w) (hh : 0 < h)
    (translated_lines : List String) (user_actions : List (ℕ × String)) :
    ∀ bs : List BBoxInfo, (∀ b ∈ bs, quadInBounds w h b.bbox) →
      ∀ (i : ℕ) (o : TextOverlay),
        o ∈ overlaysLoop w h translated_lines user_actions i bs →
        OverlayInBounds o := by
  intro bs
  induction bs with
  | nil => intro _ i o ho; simp [overlaysLoop] at ho
  | cons b rest ih =>
    intro hb i o ho
    have hbhead := hb b (List.mem_cons_self b rest)
    have hbrest : ∀ x ∈ rest, quadInBounds w h x.bbox :=
      fun x hx => hb x (List.mem_cons_of_mem b hx)
    unfold overlaysLoop at ho
    by_cases hact : getAction user_actions i = "whiteout"
    · rw [if_pos hact] at ho
      exact ih hbrest (i + 1) o ho
    · rw [if_neg hact] at ho
      rcases List.mem_cons.mp ho with hh2 | ht
      · subst hh2
        exact overlayFor_in_bounds w h hw hh b _ _ hbhead
      · exact ih hbrest (i + 1) o ht

/-- C7: For every region whose quad lies entirely within the image bounds
(all x coordinates in [0, image width] and all y coordinates in
[0, image height]), the emitted OverlayDescriptor satisfies
left + width ≤ 100 and top + height ≤ 100, and each of left, top, width,
height lies in [0, 100]. -/
theorem C7_rect_percent_in_bounds (w h : ℚ) (hw : 0 < w) (hh : 0 < h)
    (bboxes : List BBoxInfo) (translated_lines : List String)
    (user_actions : List (ℕ × String))
    (hb : ∀ b ∈ bboxes, quadInBounds w h b.bbox) :
    ∀ o ∈ create_text_overlays w h bboxes translated_lines user_actions,
      OverlayInBounds o :=
  fun o ho =>
    overlaysLoop_in_bounds w h hw hh translated_lines user_actions bboxes hb 0 o ho

/-- C7 witness: a concrete region inside a 100 x 100 image yields an overlay
whose rectPercent is inside [0, 100] with left + width and top + height at
most 100. -/
theorem C7_witness :
    OverlayInBounds (overlayFor 100 100 ⟨q0, "hello", 9/10⟩ "hello" "preserve") :=
  C7_rect_percent_in_bounds 100 100 (by norm_num) (by norm_num)
    [⟨q0, "hello", 9/10⟩] [] []
    (by intro b hb; simp at hb; subst hb; intro p hp; fin_cases hp <;> norm_num [q0])
    (overlayFor 100 100 ⟨q0, "hello", 9/10⟩ "hello" "preserve")
    (by simp [create_text_overlays, overlaysLoop, getAction, textToDraw])

/-- The `translated` field of one region of the upload response
(src/main.py line 692): `translated_lines[i] if i < len(translated_lines)
else the bbox text field`. -/
def uploadRegionTranslated (b : BBoxInfo) (translated_lines : List String)
    (i : ℕ) : String :=
  if i < translated_lines.length then translated_lines.getD i "" else b.text

theorem overlaysLoop_mem_of_not_whiteout (w h : ℚ) (tl : List String)
    (ua : List (ℕ × String)) :
    ∀ (bs : List BBoxInfo) (start i : ℕ) (hi : i < bs.length),
      getAction ua (start + i) ≠ "whiteout" →
      overlayFor w h (bs.get ⟨i, hi⟩)
          (textToDraw (getAction ua (start + i)) (start + i) tl (bs.get ⟨i, hi⟩))
          (getAction ua (start + i)) ∈
        overlaysLoop w h tl ua start bs := by
  intro bs
  induction bs with
  | nil => intro start i hi; simp at hi
  | cons b rest ih =>
    intro start i hi hne
    match i with
    | 0 =>
      simp only [Nat.add_zero] at hne ⊢
      unfold overlaysLoop
      rw [if_neg hne]
      exact List.mem_cons_self _ _
    | Nat.succ n =>
      have harith : start + (n + 1) = (start + 1) + n := by omega
      rw [harith] at hne ⊢
      have hn : n < rest.length := by simpa using Nat.lt_of_succ_lt_succ hi
      have hmem := ih (start + 1) n hn hne
      have hget : (b :: rest).get ⟨n + 1, hi⟩ = rest.get ⟨n, hn⟩ := rfl
      rw [hget]
      unfold overlaysLoop
      by_cases hact : getAction ua start = "whiteout"
      · rw [if_pos hact]
        exact hmem
      · rw [if_neg hact]
        exact List.mem_cons_of_mem _ hmem

/-- C10: For every region whose index is at least the length of the
translated-text list, an action of translate is silently treated as
preserve: the layout reconstructor displays that region original recognized
text in its OverlayDescriptor, and the upload response reports the region
original text in its translated field, rather than failing or emitting empty
text. -/
theorem C10_translate_out_of_range (w h : ℚ) (bboxes : List BBoxInfo)
    (translated_lines : List String) (ua : List (ℕ × String)) (i : ℕ)
    (hi : i < bboxes.length) (hlen : translated_lines.length ≤ i)
    (hact : getAction ua i = "translate") :
    overlayFor w h (bboxes.get ⟨i, hi⟩) ((bboxes.get ⟨i, hi⟩).text) "translate" ∈
        create_text_overlays w h bboxes translated_lines ua
    ∧ uploadRegionTranslated (bboxes.get ⟨i, hi⟩) translated_lines i =
        (bboxes.get ⟨i, hi⟩).text := by
  have hne : getAction ua i ≠ "whiteout" := by
    rw [hact]; intro hcon; exact absurd hcon (by decide)
  have hmem := overlaysLoop_mem_of_not_whiteout w h translated_lines ua bboxes 0 i
    (by simpa using hi) (by simpa using hne)
  have hdraw : textToDraw (getAction ua (0 + i)) (0 + i) translated_lines
      (bboxes.get ⟨i, by simpa using hi⟩) = (bboxes.get ⟨i, hi⟩).text := by
    simp only [Nat.zero_add, hact]
    unfold textToDraw
    rw [if_neg]
    intro hcon
    exact absurd hcon.2 (Nat.not_lt.2 hlen)
  constructor
  · have := hmem
    rw [hdraw] at this
    simpa [create_text_overlays, Nat.zero_add, hact] using this
  · unfold uploadRegionTranslated
    rw [if_neg (Nat.not_lt.2 hlen)]

/-- C10 witness: one concrete region marked translate with an empty
translated-text list: its emitted overlay shows the original text and the
upload response reports the original text. -/
theorem C10_witness :
    overlayFor 100 100 ⟨q0, "hello", 9/10⟩ "hello" "translate" ∈
        create_text_overlays 100 100 [⟨q0, "hello", 9/10⟩] [] [(0, "translate")]
    ∧ uploadRegionTranslated ⟨q0, "hello", 9/10⟩ [] 0 = "hello" :=
  C10_translate_out_of_range 100 100 [⟨q0, "hello", 9/10⟩] [] [(0, "translate")] 0
    (by simp) (by simp) rfl

/-! ## Translation orchestrator (`translate_text`, `fallback_translation`,
`translate_text_with_agents` and the per-region loop of `upload_image`,
src/main.py lines 99-238 and 650-664).

The LLM collaborator is abstracted as a function from the submitted document
text to the call outcome; the embedding records the text submitted by each
call so that claims about which calls are issued are statable. -/

/-- The Telugu entries of the static `fallback_translations` table. -/
def fallback_translations_te : List (String × String) :=
  [("OFFICE OF THE REGISTRAR GENERAL", "రిజిస్ట్రార్ జనరల్ కార్యాలయం"),
   ("Government of India", "భారత ప్రభుత్వం"),
   ("Ministry of Home Affairs", "గృహ వ్యవహారాల మంత్రిత్వ శాఖ"),
   ("TENDER ENQUIRY NOTICE", "టెండర్ విచారణ నోటీసు"),
   ("Subject:", "విషయం:"),
   ("Dated:", "తేదీ:"),
   ("No.", "సంఖ్య:"),
   ("Procurement", "కొనుగోలు"),
   ("Supply", "సరఫరా"),
   ("Services", "సేవలు"),
   ("Contract", "ఒప్పందం"),
   ("Agreement", "ఒప్పందం"),
   ("Terms and Conditions", "నిబంధనలు మరియు షరతులు")]

/-- The Hindi entries of the static `fallback_translations` table. -/
def fallback_translations_hi : List (String × String) :=
  [("OFFICE OF THE REGISTRAR GENERAL", "रजिस्ट्रार जनरल का कार्यालय"),
   ("Government of India", "भारत सरकार"),
   ("Ministry of Home Affairs", "गृह मंत्रालय"),
   ("TENDER ENQUIRY NOTICE", "निविदा पूछताछ नोटिस"),
   ("Subject:", "विषय:"),
   ("Dated:", "दिनांक:"),
   ("No.", "संख्या:"),
   ("Procurement", "खरीद"),
   ("Supply", "आपूर्ति"),
   ("Services", "सेवाएं"),
   ("Contract", "अनुबंध"),
   ("Agreement", "समझौता"),
   ("Terms and Conditions", "नियम और शर्तें")]

/-- The Tamil entries of the static `fallback_translations` table. -/
def fallback_translations_ta : List (String × String) :=
  [("OFFICE OF THE REGISTRAR GENERAL", "பதிவாளர் ஜெனரல் அலுவலகம்"),
   ("Government of India", "இந்திய அரசு"),
   ("Ministry of Home Affairs", "உள்துறை அமைச்சகம்"),
   ("TENDER ENQUIRY NOTICE", "டெண்டர் விசாரணை அறிவிப்பு"),
   ("Subject:", "பொருள்:"),
   ("Dated:", "தேதி:"),
   ("No.", "எண்:"),
   ("Procurement", "கொள்முதல்"),
   ("Supply", "வழங்கல்"),
   ("Services", "சேவைகள்"),
   ("Contract", "ஒப்பந்தம்"),
   ("Agreement", "ஒப்பந்தம்"),
   ("Terms and Conditions", "விதிமுறைகள் மற்றும் நிபந்தனைகள்")]

/-- `fallback_translations.get(target_language, {})`: the per-language
dictionary, empty for languages without one. -/
def fallback_translations (target_language : String) : List (String × String) :=
  if target_language = "te" then fallback_translations_te
  else if target_language = "hi" then fallback_translations_hi
  else if target_language = "ta" then fallback_translations_ta
  else []

/-- The `for english_term, translated_term in translations.items()` loop:
whole-phrase replacement of every dictionary entry, in table order
(`str.replace` replaces all occurrences, as does `String.replace`). -/
def applySubstitutions (text : String) (subs : List (String × String)) : String :=
  subs.foldl (fun acc p => acc.replace p.1 p.2) text

/-- `fallback_translation`: apply the substitution table; if the text is
unchanged, wrap the original in the bracketed untranslated marker naming the
upper-cased target language code. -/
def fallback_translation (text target_language : String) : String :=
  let translated_text := applySubstitutions text (fallback_translations target_language)
  if translated_text = text then
    "[" ++ target_language.toUpper ++ "] " ++ text ++
      " [Translation unavailable - Ollama service required]"
  else
    translated_text

/-- `translate_text` (direct mode): one LLM call on the region text; on a
raised call fall back to `fallback_translation`.  The second component is the
trace of texts submitted to the LLM (always exactly one). -/
def translate_text (gen : String → Except Unit String) (text target_language : String) :
    String × List String :=
  match gen text with
  | .ok response => (response, [text])
  | .error _ => (fallback_translation text target_language, [text])

/-- `translate_text_with_agents` (agentic mode): despite its name it also
issues exactly one LLM call on the text passed to it, with the same
exception fallback as the direct path. -/
def translate_text_with_agents (gen : String → Except Unit String)
    (text target_language : String) : String × List String :=
  match gen text with
  | .ok response => (response, [text])
  | .error _ => (fallback_translation text target_language, [text])

/-- The `for i, bbox in enumerate(bboxes)` translation loop of `upload_image`
(src/main.py lines 650-664): one translation per region, agentic or direct by
`agent_mode`.  Returns `translated_lines` and the concatenated trace of texts
submitted to the LLM. -/
def uploadLoop (gen : ℕ → String → Except Unit String) (agent_mode : Bool)
    (target_language : String) : ℕ → List BBoxInfo → List String × List String
  | _, [] => ([], [])
  | i, b :: rest =>
    let r :=
      if agent_mode then translate_text_with_agents (gen i) b.text target_language
      else translate_text (gen i) b.text target_language
    let rs := uploadLoop gen agent_mode target_language (i + 1) rest
    (r.1 :: rs.1, r.2 ++ rs.2)

/-- The translation step of `upload_image`, starting at region index 0. -/
def upload_translations (gen : ℕ → String → Except Unit String) (agent_mode : Bool)
    (target_language : String) (bboxes : List BBoxInfo) : List String × List String :=
  uploadLoop gen agent_mode target_language 0 bboxes

/-- the newline-join of the bbox text fields
(src/main.py line 640): the concatenated whole-document text.  It is printed
for debugging but never submitted for translation. -/
def joined_document_text (bboxes : List BBoxInfo) : String :=
  String.intercalate "\n" (bboxes.map (fun b => b.text))

/-- C1 counterexample: a concrete agent-mode upload with two regions "a" and
"b" issues two translation calls, one per region text, and does not issue the
single whole-document call over the joined text "a\nb" that the claim
asserts. -/
theorem C1_counterexample :
    (upload_translations (fun _ _ => .error ()) true "te"
        [⟨q0, "a", 9/10⟩, ⟨q0, "b", 9/10⟩]).2 = ["a", "b"]
    ∧ (upload_translations (fun _ _ => .error ()) true "te"
        [⟨q0, "a", 9/10⟩, ⟨q0, "b", 9/10⟩]).2 ≠
      [joined_document_text [⟨q0, "a", 9/10⟩, ⟨q0, "b", 9/10⟩]] := by
  constructor
  · rfl
  · intro hcon
    rw [show (upload_translations (fun _ _ => .error ()) true "te"
        [⟨q0, "a", 9/10⟩, ⟨q0, "b", 9/10⟩]).2 = ["a", "b"] from rfl] at hcon
    simp [joined_document_text] at hcon

theorem uploadLoop_agent_trace (gen : ℕ → String → Except Unit String)
    (target_language : String) :
    ∀ (bs : List BBoxInfo) (i : ℕ),
      (uploadLoop gen true target_language i bs).2 = bs.map (fun b => b.text) := by
  intro bs
  induction bs with
  | nil => intro i; rfl
  | cons b rest ih =>
    intro i
    have hr : (translate_text_with_agents (gen i) b.text target_language).2 = [b.text] := by
      cases hg : gen i b.text <;> simp [translate_text_with_agents, hg]
    unfold uploadLoop
    simp [hr, ih (i + 1)]

/-- C1 (amended): in agentic mode the translation is performed once per
region, over that region own text — the trace of texts submitted for agentic
translation equals the list of region texts, and the concatenated document
text is not among the calls (it is computed only for debug output). -/
theorem C1_amended_per_region_calls (gen : ℕ → String → Except Unit String)
    (target_language : String) (bboxes : List BBoxInfo) :
    (upload_translations gen true target_language bboxes).2 =
      bboxes.map (fun b => b.text) :=
  uploadLoop_agent_trace gen target_language bboxes 0

theorem uploadLoop_direct_get (gen : ℕ → String → Except Unit String)
    (target_language : String) :
    ∀ (bs : List BBoxInfo) (start i : ℕ) (hi : i < bs.length),
      (uploadLoop gen false target_language start bs).1.getD i "" =
        (translate_text (gen (start + i)) (bs.get ⟨i, hi⟩).text target_language).1 := by
  intro bs
  induction bs with
  | nil => intro start i hi; simp at hi
  | cons b rest ih =>
    intro start i hi
    match i with
    | 0 =>
      simp only [Nat.add_zero]
      rfl
    | Nat.succ n =>
      have hn : n < rest.length := by simpa using Nat.lt_of_succ_lt_succ hi
      have harith : start + (n + 1) = (start + 1) + n := by omega
      rw [harith]
      have := ih (start + 1) n hn
      unfold uploadLoop
      simpa using this

/-- C6: In direct mode, whenever the per-region LLM translation call fails,
the region result is produced by whole-phrase substitution from the finite
per-language fallback dictionary; whenever no dictionary entry matches (the
substitution leaves the text unchanged), the result is the original text
wrapped with a bracketed marker naming the target language code and noting
translation is unavailable; and the failure of one region call affects no
other region result (each region result depends only on its own call
outcome). -/
theorem C6_direct_fallback (gen : ℕ → String → Except Unit String)
    (target_language : String) (bboxes : List BBoxInfo) (i : ℕ)
    (hi : i < bboxes.length) :
    (gen i (bboxes.get ⟨i, hi⟩).text = .error () →
      (upload_translations gen false target_language bboxes).1.getD i "" =
        fallback_translation (bboxes.get ⟨i, hi⟩).text target_language)
    ∧ (gen i (bboxes.get ⟨i, hi⟩).text = .error () →
       applySubstitutions (bboxes.get ⟨i, hi⟩).text
           (fallback_translations target_language) = (bboxes.get ⟨i, hi⟩).text →
      (upload_translations gen false target_language bboxes).1.getD i "" =
        "[" ++ target_language.toUpper ++ "] " ++ (bboxes.get ⟨i, hi⟩).text ++
          " [Translation unavailable - Ollama service required]")
    ∧ (∀ gen2 : ℕ → String → Except Unit String, gen2 i = gen i →
      (upload_translations gen2 false target_language bboxes).1.getD i "" =
        (upload_translations gen false target_language bboxes).1.getD i "") := by
  have hget := uploadLoop_direct_get gen target_language bboxes 0 i hi
  simp only [Nat.zero_add] at hget
  refine ⟨?_, ?_, ?_⟩
  · intro hfail
    unfold upload_translations
    rw [hget]
    unfold translate_text
    rw [hfail]
  · intro hfail hsub
    unfold upload_translations
    rw [hget]
    unfold translate_text
    rw [hfail]
    show fallback_translation (bboxes.get ⟨i, hi⟩).text target_language = _
    simp only [fallback_translation]
    rw [if_pos hsub]
  · intro gen2 hg2
    have hget2 := uploadLoop_direct_get gen2 target_language bboxes 0 i hi
    simp only [Nat.zero_add] at hget2
    unfold upload_translations
    rw [hget, hget2, hg2]

/-- C6 witness: a single region "xyz", an always-raising LLM and target
language code fr (which has no fallback dictionary): the region result is the
original text wrapped in the untranslated marker naming FR. -/
theorem C6_witness :
    (upload_translations (fun _ _ => .error ()) false "fr" [⟨q0, "xyz", 9/10⟩]).1.getD 0 "" =
      "[" ++ "fr".toUpper ++ "] " ++ "xyz" ++
        " [Translation unavailable - Ollama service required]" :=
  (C6_direct_fallback (fun _ _ => .error ()) "fr" [⟨q0, "xyz", 9/10⟩] 0 (by simp)).2.1
    rfl rfl

/-! ## Agent pipeline (`AgentFramework.executeTranslationPipeline` and the
agent classes, src/main.py lines 1765-2356).

Each agent calls the LLM once (`callOllama`); that call is abstracted as a
function of the texts the agent interpolates into its prompt, raising via
`Except.error`.  `JSON.parse` plus shape extraction is abstracted as a
parameter returning `Option`; the claims below concern only the branch where
parsing throws. -/

/-- The `StructuredVerdict` shape requested by the Validation agent. -/
structure StructuredVerdict where
  status : String
  score : ℕ
  issues : List String
  recommendations : List String
deriving DecidableEq

/-- The verdict object built by `LanguageConsistencyAgent.checkConsistency`. -/
structure ConsistencyVerdict where
  isConsistent : Bool
  mixedWords : List String
  mixedLanguages : List String
  consistencyScore : ℕ
  recommendations : List String
  targetLanguage : String
deriving DecidableEq

/-- A parsed consistency reply before the per-field defaulting
(`analysis.mixedWords || []` and so on): absent fields are `none`. -/
structure ConsistencyAnalysis where
  isConsistent : Bool
  mixedWords : Option (List String)
  mixedLanguages : Option (List String)
  consistencyScore : Option ℕ
  recommendations : Option (List String)

/-- The `getLanguageName` table shared by the agent classes. -/
def languageNames : List (String × String) :=
  [("en", "English"), ("te", "Telugu"), ("kn", "Kannada"), ("ta", "Tamil"),
   ("hi", "Hindi"), ("bn", "Bengali"), ("gu", "Gujarati"), ("pa", "Punjabi"),
   ("mr", "Marathi"), ("or", "Odia"), ("as", "Assamese"), ("ne", "Nepali"),
   ("ur", "Urdu"), ("ml", "Malayalam"), ("si", "Sinhala"), ("my", "Burmese"),
   ("th", "Thai"), ("km", "Khmer"), ("lo", "Lao"), ("vi", "Vietnamese"),
   ("es", "Spanish"), ("fr", "French"), ("de", "German"), ("ja", "Japanese"),
   ("ko", "Korean"), ("zh", "Chinese")]

/-- `names[langCode] || langCode`. -/
def getLanguageName (langCode : String) : String :=
  (languageNames.lookup langCode).getD langCode

/-- The fixed fallback verdict substituted by
`ValidationAgent.validateTranslation` when `JSON.parse` throws
(src/main.py lines 2180-2187). -/
def validation_parse_fallback : StructuredVerdict :=
  ⟨"needs_revision", 50, ["JSON parsing failed"], ["Manual review required"]⟩

/-- `ValidationAgent.validateTranslation`: one LLM call on the two texts;
the reply is JSON-parsed, and a parse failure substitutes the fixed fallback
verdict instead of aborting. -/
def validateTranslation (gen : String → String → Except Unit String)
    (parseJson : String → Option StructuredVerdict)
    (originalText translatedText : String) : Except Unit StructuredVerdict :=
  match gen originalText translatedText with
  | .error e => .error e
  | .ok result =>
    match parseJson result with
    | some v => .ok v
    | none => .ok validation_parse_fallback

/-- Whether `pat` starts the character list `l`. -/
def headMatches : List Char → List Char → Bool
  | [], _ => true
  | _ :: _, [] => false
  | p :: ps, c :: cs => p == c && headMatches ps cs

/-- Whether `pat` occurs as a contiguous run inside the character list. -/
def occursInChars (pat : List Char) : List Char → Bool
  | [] => pat.isEmpty
  | c :: cs => headMatches pat (c :: cs) || occursInChars pat cs

/-- JavaScript `s.includes(pat)`: substring containment. -/
def includesSubstr (s pat : String) : Bool :=
  occursInChars pat.toList s.toList

/-- `LanguageConsistencyAgent.checkConsistency`: one LLM call; a parsed reply
is defaulted field by field; on a parse failure `isConsistent` is derived by
searching the lower-cased raw reply for the word inconsistent, with a neutral
score of 50 and a manual-review recommendation. -/
def checkConsistency (gen : String → String → Except Unit String)
    (parseJson : String → Option ConsistencyAnalysis)
    (text targetLang originalText : String) : Except Unit ConsistencyVerdict :=
  match gen text originalText with
  | .error e => .error e
  | .ok result =>
    match parseJson result with
    | some analysis =>
      .ok ⟨analysis.isConsistent, analysis.mixedWords.getD [],
           analysis.mixedLanguages.getD [], analysis.consistencyScore.getD 0,
           analysis.recommendations.getD [], getLanguageName targetLang⟩
    | none =>
      .ok ⟨!(includesSubstr result.toLower "inconsistent"), [], [], 50,
           ["Manual review recommended"], getLanguageName targetLang⟩

/-- JavaScript `a || b` on strings: `b` when `a` is empty (falsy). -/
def jsOr (a b : String) : String :=
  if a = "" then b else a

/-- The oracles for the five pipeline agents: each maps the texts the agent
receives to the outcome of its single LLM interaction (the Validation and
ConsistencyCheck parse fallbacks are part of the agents, so those two already
return verdicts). -/
structure PipelineOracles where
  contextAnalyzer : String → Except Unit String
  translator : String → String → Except Unit String
  validator : String → String → Except Unit StructuredVerdict
  quality : String → String → String → Except Unit String
  consistency : String → String → Except Unit ConsistencyVerdict

/-- The four stages every successful run reaches, in order. -/
def pipelineStagesBase : List String :=
  ["contextAnalyzer", "translator", "validator", "languageConsistencyChecker"]

/-- `AgentFramework.executeTranslationPipeline`: the fixed stage sequence,
the conditional quality-improvement branch
(`validation.status === "needs_revision" || validation.status === "invalid"
|| !consistencyCheck.isConsistent`), the final-validation re-run only when
the improved text differs, and the JavaScript
`finalText || translatedText` return.  A raised stage aborts the run
(`Except.error`).  The second component is the trace of agents invoked, in
order. -/
def executeTranslationPipeline (o : PipelineOracles) (originalText : String) :
    Except Unit String × List String :=
  match o.contextAnalyzer originalText with
  | .error e => (.error e, ["contextAnalyzer"])
  | .ok context =>
    match o.translator originalText context with
    | .error e => (.error e, ["contextAnalyzer", "translator"])
    | .ok translatedText =>
      match o.validator originalText translatedText with
      | .error e => (.error e, ["contextAnalyzer", "translator", "validator"])
      | .ok validation =>
        match o.consistency translatedText originalText with
        | .error e => (.error e, pipelineStagesBase)
        | .ok consistencyCheck =>
          if validation.status = "needs_revision" ∨ validation.status = "invalid" ∨
              consistencyCheck.isConsistent = false then
            match o.quality originalText translatedText context with
            | .error e => (.error e, pipelineStagesBase ++ ["qualityAssurance"])
            | .ok finalText =>
              if finalText = translatedText then
                (.ok (jsOr finalText translatedText),
                 pipelineStagesBase ++ ["qualityAssurance"])
              else
                match o.validator originalText finalText with
                | .error e =>
                  (.error e, pipelineStagesBase ++ ["qualityAssurance", "validator"])
                | .ok _ =>
                  (.ok (jsOr finalText translatedText),
                   pipelineStagesBase ++ ["qualityAssurance", "validator"])
          else
            (.ok (jsOr translatedText translatedText), pipelineStagesBase)

theorem jsOr_self (a : String) : jsOr a a = a := by
  unfold jsOr
  split <;> rfl

/-- C3: For every pipeline run (whose first four stages succeed, so that both
verdicts exist), the QualityImprovement stage executes if and only if the
Validation verdict status is needs_revision or invalid, or the
ConsistencyCheck verdict isConsistent is false; for every other combination
of verdicts QualityImprovement is never invoked and the pipeline final output
equals the Translation stage output unchanged. -/
theorem C3_quality_branch (o : PipelineOracles) (orig context translatedText : String)
    (validation : StructuredVerdict) (consistencyCheck : ConsistencyVerdict)
    (hc : o.contextAnalyzer orig = .ok context)
    (ht : o.translator orig context = .ok translatedText)
    (hv : o.validator orig translatedText = .ok validation)
    (hcc : o.consistency translatedText orig = .ok consistencyCheck) :
    ("qualityAssurance" ∈ (executeTranslationPipeline o orig).2 ↔
      (validation.status = "needs_revision" ∨ validation.status = "invalid" ∨
       consistencyCheck.isConsistent = false))
    ∧ (¬(validation.status = "needs_revision" ∨ validation.status = "invalid" ∨
          consistencyCheck.isConsistent = false) →
        executeTranslationPipeline o orig = (.ok translatedText, pipelineStagesBase)) := by
  unfold executeTranslationPipeline
  simp only [hc, ht, hv, hcc]
  by_cases hcond : validation.status = "needs_revision" ∨ validation.status = "invalid" ∨
      consistencyCheck.isConsistent = false
  · rw [if_pos hcond]
    refine ⟨⟨fun _ => hcond, fun _ => ?_⟩, fun hn => absurd hcond hn⟩
    cases hq : o.quality orig translatedText context with
    | error e => simp [pipelineStagesBase]
    | ok finalText =>
      by_cases hft : finalText = translatedText
      · simp [hft, pipelineStagesBase]
      · cases hval2 : o.validator orig finalText with
        | error e => simp [hft, hval2, pipelineStagesBase]
        | ok v2 => simp [hft, hval2, pipelineStagesBase]
  · rw [if_neg hcond]
    refine ⟨⟨fun hmem => absurd hmem ?_, fun hcond2 => absurd hcond2 hcond⟩,
      fun _ => ?_⟩
    · show "qualityAssurance" ∉ pipelineStagesBase
      decide
    · rw [jsOr_self]

/-- A concrete oracle assignment where every agent succeeds, Validation says
valid and ConsistencyCheck says consistent. -/
def oracleAllGood : PipelineOracles :=
  ⟨fun _ => .ok "ctx",
   fun _ _ => .ok "T",
   fun _ _ => .ok ⟨"valid", 90, [], []⟩,
   fun _ _ _ => .ok "Q",
   fun _ _ => .ok ⟨true, [], [], 95, [], "Telugu"⟩⟩

/-- C3 witness: with a valid and consistent run the quality agent is not
invoked and the pipeline returns the Translation output unchanged. -/
theorem C3_witness :
    executeTranslationPipeline oracleAllGood "doc" = (.ok "T", pipelineStagesBase) :=
  (C3_quality_branch oracleAllGood "doc" "ctx" "T" ⟨"valid", 90, [], []⟩
    ⟨true, [], [], 95, [], "Telugu"⟩ rfl rfl rfl rfl).2 (by decide)

/-- C4 counterexample: on a reply whose parse fails the Validation stage
returns the fallback verdict of the source, whose issue and recommendation
strings are "JSON parsing failed" and "Manual review required" — not the
exact verdict {needs_revision, 50, ["parse failure"], ["manual review"]}
asserted by the claim. -/
theorem C4_counterexample :
    validateTranslation (fun _ _ => .ok "not json") (fun _ => none) "orig" "trans" =
      .ok validation_parse_fallback
    ∧ validation_parse_fallback ≠
      ⟨"needs_revision", 50, ["parse failure"], ["manual review"]⟩ :=
  ⟨rfl, by decide⟩

/-- C4 (amended): for every Validation-stage reply that fails to parse, the
stage does not abort and returns exactly the fixed fallback verdict
{status: needs_revision, score: 50, issues: ["JSON parsing failed"],
recommendations: ["Manual review required"]}. -/
theorem C4_validation_fallback (gen : String → String → Except Unit String)
    (parseJson : String → Option StructuredVerdict)
    (originalText translatedText r : String)
    (hg : gen originalText translatedText = .ok r) (hp : parseJson r = none) :
    validateTranslation gen parseJson originalText translatedText =
      .ok ⟨"needs_revision", 50, ["JSON parsing failed"], ["Manual review required"]⟩ := by
  unfold validateTranslation
  rw [hg]
  simp [hp, validation_parse_fallback]

/-- C4 witness: a concrete unparseable reply yields the fallback verdict. -/
theorem C4_witness :
    validateTranslation (fun _ _ => .ok "garbage") (fun _ => none) "o" "t" =
      .ok ⟨"needs_revision", 50, ["JSON parsing failed"], ["Manual review required"]⟩ :=
  C4_validation_fallback (fun _ _ => .ok "garbage") (fun _ => none) "o" "t" "garbage"
    rfl rfl

/-- C9: For every ConsistencyCheck-stage reply that fails to parse, the stage
returns (never aborts) a verdict whose isConsistent is true exactly when the
raw reply does not contain the word inconsistent case-insensitively, whose
consistencyScore is 50, and whose recommendations contain a manual-review
recommendation. -/
theorem C9_consistency_fallback (gen : String → String → Except Unit String)
    (parseJson : String → Option ConsistencyAnalysis)
    (text targetLang originalText r : String)
    (hg : gen text originalText = .ok r) (hp : parseJson r = none) :
    checkConsistency gen parseJson text targetLang originalText =
      .ok ⟨!(includesSubstr r.toLower "inconsistent"), [], [], 50,
           ["Manual review recommended"], getLanguageName targetLang⟩
    ∧ (∀ v, checkConsistency gen parseJson text targetLang originalText = .ok v →
        ((v.isConsistent = true ↔ includesSubstr r.toLower "inconsistent" = false)
         ∧ v.consistencyScore = 50
         ∧ "Manual review recommended" ∈ v.recommendations)) := by
  have heq : checkConsistency gen parseJson text targetLang originalText =
      .ok ⟨!(includesSubstr r.toLower "inconsistent"), [], [], 50,
           ["Manual review recommended"], getLanguageName targetLang⟩ := by
    unfold checkConsistency
    rw [hg]
    simp [hp]
  refine ⟨heq, fun v hv => ?_⟩
  rw [heq] at hv
  have hv2 : (⟨!(includesSubstr r.toLower "inconsistent"), [], [], 50,
      ["Manual review recommended"], getLanguageName targetLang⟩ : ConsistencyVerdict) = v :=
    Except.ok.inj hv
  subst hv2
  refine ⟨?_, rfl, by simp⟩
  show (!(includesSubstr r.toLower "inconsistent")) = true ↔
      includesSubstr r.toLower "inconsistent" = false
  simp

/-- C9 witness: a concrete reply "all good" that fails to parse yields a
non-aborting verdict with isConsistent true, score 50 and the manual-review
recommendation. -/
theorem C9_witness :
    checkConsistency (fun _ _ => .ok "all good") (fun _ => none) "t" "te" "o" =
      .ok ⟨!(includesSubstr ("all good").toLower "inconsistent"), [], [], 50,
           ["Manual review recommended"], getLanguageName "te"⟩ :=
  (C9_consistency_fallback (fun _ _ => .ok "all good") (fun _ => none) "t" "te" "o"
    "all good" rfl rfl).1
